import Mathlib

set_option maxRecDepth 1000000

set_option maxHeartbeats 2000000

/-!
Verification of the pavedroad-io/go-core structured-logging broker pipeline.

The definitions below are a shallow embedding of the `logger` package:
the kafka producer wrapper (`newKafkaProducer`, `getKey`, `sendMessage`,
from part_005 lines 607-808), the cloudevents enricher (`newCloudEvents`,
`ceGetID`, `ceAddFields`, `incrementalID` from src/logger/cloudevents.go),
the lifecycle-safe writer (src/logger/zap_writer.go), and concrete models
of the external Go library functions they call (crypto/sha256, crypto/hmac,
encoding/base64, strconv/fmt decimal formatting).  JSON records
(`map[string]interface{}`) are association lists of `JValue`s; the
`encoding/json` decoder is modelled at its interface boundary by the
`Payload` type.  Go runtime panics from failed type assertions are a
distinct `Outcome` from returned errors.
-/

namespace GoCore

/-- Dynamically-typed JSON value as produced by `encoding/json.Unmarshal`
into `map[string]interface{}` (Go strings, numbers, booleans, null,
arrays, nested objects). -/
inductive JValue where
  | str (s : String)
  | num (n : Int)
  | jbool (b : Bool)
  | jnull
  | arr (xs : List JValue)
  | obj (fs : List (String × JValue))

/-- A decoded record: the `map[string]interface{}` message map.  Go maps
are unordered; we use an association list and key-based operations. -/
abbrev Record := List (String × JValue)

/-- Go map read `m[k]`: the value bound to `k`, if any. -/
def lookupF (m : Record) (k : String) : Option JValue :=
  match m with
  | [] => none
  | (k', v) :: rest => if k' = k then some v else lookupF rest k

/-- Go `delete(m, k)`: remove the binding of `k`. -/
def eraseF (m : Record) (k : String) : Record :=
  m.filter (fun kv => kv.1 ≠ k)

/-- Go map write `m[k] = v`. -/
def insertF (m : Record) (k : String) (v : JValue) : Record :=
  eraseF m k ++ [(k, v)]

/-- Go comma-ok string type assertion `v.(string)` on an optional map
read: `some s` when the key is present and bound to a string. -/
def asString (v : Option JValue) : Option String :=
  match v with
  | some (JValue.str s) => some s
  | _ => none

/-- Result of running a piece of Go code: a normal value, a returned
`error`, or a runtime panic (failed type assertion, nil dereference). -/
inductive Outcome (α : Type) where
  | ok (val : α)
  | err (msg : String)
  | panicked (msg : String)
deriving DecidableEq, Repr

end GoCore

namespace GoCore

/-! ## Bytes and UTF-8 (Go `[]byte(string)`) -/

/-- UTF-8 encoding of one code point, as Go produces for `[]byte(string)`. -/
def charUTF8 (c : Char) : List Nat :=
  let n := c.toNat
  if n < 0x80 then [n]
  else if n < 0x800 then [0xC0 ||| (n >>> 6), 0x80 ||| (n &&& 0x3F)]
  else if n < 0x10000 then
    [0xE0 ||| (n >>> 12), 0x80 ||| ((n >>> 6) &&& 0x3F), 0x80 ||| (n &&& 0x3F)]
  else
    [0xF0 ||| (n >>> 18), 0x80 ||| ((n >>> 12) &&& 0x3F),
     0x80 ||| ((n >>> 6) &&& 0x3F), 0x80 ||| (n &&& 0x3F)]

/-- Go `[]byte(s)`: the UTF-8 bytes of a string. -/
def strBytes (s : String) : List Nat :=
  (s.data.map charUTF8).flatten

/-! ## SHA-256 (Go `crypto/sha256`), on byte lists -/

/-- Truncate to a 32-bit word. -/
def w32 (n : Nat) : Nat := n % 4294967296

/-- 32-bit modular addition. -/
def add32 (a b : Nat) : Nat := (a + b) % 4294967296

/-- Rotate a 32-bit word right by `n` bits. -/
def rotr32 (n x : Nat) : Nat := w32 ((x >>> n) ||| (x <<< (32 - n)))

/-- SHA-256 big Sigma-0. -/
def bSig0 (x : Nat) : Nat := rotr32 2 x ^^^ rotr32 13 x ^^^ rotr32 22 x

/-- SHA-256 big Sigma-1. -/
def bSig1 (x : Nat) : Nat := rotr32 6 x ^^^ rotr32 11 x ^^^ rotr32 25 x

/-- SHA-256 small sigma-0. -/
def sSig0 (x : Nat) : Nat := rotr32 7 x ^^^ rotr32 18 x ^^^ (x >>> 3)

/-- SHA-256 small sigma-1. -/
def sSig1 (x : Nat) : Nat := rotr32 17 x ^^^ rotr32 19 x ^^^ (x >>> 10)

/-- SHA-256 round constants. -/
def sha256K : List Nat :=
  [1116352408, 1899447441, 3049323471, 3921009573, 961987163,
   1508970993, 2453635748, 2870763221, 3624381080, 310598401,
   607225278, 1426881987, 1925078388, 2162078206, 2614888103,
   3248222580, 3835390401, 4022224774, 264347078, 604807628,
   770255983, 1249150122, 1555081692, 1996064986, 2554220882,
   2821834349, 2952996808, 3210313671, 3336571891, 3584528711,
   113926993, 338241895, 666307205, 773529912, 1294757372,
   1396182291, 1695183700, 1986661051, 2177026350, 2456956037,
   2730485921, 2820302411, 3259730800, 3345764771, 3516065817,
   3600352804, 4094571909, 275423344, 430227734, 506948616,
   659060556, 883997877, 958139571, 1322822218, 1537002063,
   1747873779, 1955562222, 2024104815, 2227730452, 2361852424,
   2428436474, 2756734187, 3204031479, 3329325298]

/-- SHA-256 initial hash state. -/
def sha256H0 : List Nat :=
  [1779033703, 3144134277, 1013904242, 2773480762,
   1359893119, 2600822924, 528734635, 1541459225]

/-- Big-endian byte serialization of `v` in `n` bytes. -/
def beBytes : Nat → Nat → List Nat
  | 0, _ => []
  | n + 1, v => beBytes n (v >>> 8) ++ [v % 256]

/-- SHA-256 message padding: append `0x80`, zeros, and the 64-bit
big-endian bit length, to a multiple of 64 bytes. -/
def sha256Pad (msg : List Nat) : List Nat :=
  let L := msg.length
  let k := (64 - (L + 9) % 64) % 64
  msg ++ [0x80] ++ List.replicate k 0 ++ beBytes 8 ((8 * L) % 18446744073709551616)

/-- Group bytes into big-endian 32-bit words. -/
def beWords : List Nat → List Nat
  | a :: b :: c :: d :: rest => (((a * 256 + b) * 256 + c) * 256 + d) :: beWords rest
  | _ => []

/-- Split a byte list into 64-byte chunks; the fuel argument (one unit
per chunk) makes the recursion structural so that proofs can evaluate
it. -/
def chunks64Aux : Nat → List Nat → List (List Nat)
  | 0, _ => []
  | fuel + 1, l => if l = [] then [] else l.take 64 :: chunks64Aux fuel (l.drop 64)

/-- Split a byte list into 64-byte chunks. -/
def chunks64 (l : List Nat) : List (List Nat) := chunks64Aux l.length l

/-- One extension step of the SHA-256 message schedule, appending the
next word. -/
def extendWStep (w : List Nat) : List Nat :=
  w ++ [add32
    (add32 (sSig1 (w.getD (w.length - 2) 0)) (w.getD (w.length - 7) 0))
    (add32 (sSig0 (w.getD (w.length - 15) 0)) (w.getD (w.length - 16) 0))]

/-- Iterate schedule extension. -/
def extendWAux : Nat → List Nat → List Nat
  | 0, w => w
  | n + 1, w => extendWAux n (extendWStep w)

/-- Extend the 16 chunk words to the 64-entry SHA-256 message schedule. -/
def extendW (w : List Nat) : List Nat := extendWAux (64 - w.length) w

/-- One SHA-256 compression round; the state is the 8-word working list. -/
def shaRound (st : List Nat) (kw : Nat) : List Nat :=
  match st with
  | [a, b, c, d, e, f, g, h] =>
    let ch := (e &&& f) ^^^ ((4294967295 ^^^ e) &&& g)
    let maj := (a &&& b) ^^^ (a &&& c) ^^^ (b &&& c)
    let t1 := add32 h (add32 (bSig1 e) (add32 ch kw))
    let t2 := add32 (bSig0 a) maj
    [add32 t1 t2, a, b, c, add32 d t1, e, f, g]
  | other => other

/-- SHA-256 compression of one 64-byte chunk into the running state. -/
def shaCompress (st : List Nat) (chunk : List Nat) : List Nat :=
  let w := extendW (beWords chunk)
  let kws := (w.zip sha256K).map (fun p => add32 p.1 p.2)
  let fin := kws.foldl shaRound st
  (st.zip fin).map (fun p => add32 p.1 p.2)

/-- SHA-256 digest of a byte list (Go `sha256.Sum256`). -/
def sha256 (msg : List Nat) : List Nat :=
  let st := (chunks64 (sha256Pad msg)).foldl shaCompress sha256H0
  (st.map (beBytes 4)).flatten

/-- HMAC-SHA-256 of `msg` under `key` (Go `hmac.New(sha256.New, key)`). -/
def hmacSHA256 (key msg : List Nat) : List Nat :=
  let k0 := if 64 < key.length then sha256 key else key
  let kp := k0 ++ List.replicate (64 - k0.length) 0
  let inner := sha256 (kp.map (fun b => b ^^^ 0x36) ++ msg)
  sha256 (kp.map (fun b => b ^^^ 0x5c) ++ inner)

/-! ## Base64 (Go `encoding/base64.StdEncoding`) -/

/-- The standard base64 alphabet. -/
def base64Alphabet : List Char :=
  "ABCDEFGHIJKLMNOPQRSTUVWXYZabcdefghijklmnopqrstuvwxyz0123456789+/".data

/-- Character for a 6-bit group. -/
def b64c (n : Nat) : Char := base64Alphabet.getD n 'A'

/-- Base64 encoding of a byte list as characters, with `=` padding. -/
def base64Chars : List Nat → List Char
  | [] => []
  | [a] => [b64c (a >>> 2), b64c ((a &&& 3) <<< 4), '=', '=']
  | [a, b] => [b64c (a >>> 2), b64c (((a &&& 3) <<< 4) ||| (b >>> 4)),
               b64c ((b &&& 15) <<< 2), '=']
  | a :: b :: c :: rest =>
    b64c (a >>> 2) :: b64c (((a &&& 3) <<< 4) ||| (b >>> 4)) ::
    b64c (((b &&& 15) <<< 2) ||| (c >>> 6)) :: b64c (c &&& 63) ::
    base64Chars rest

/-- Go `base64.StdEncoding.EncodeToString`. -/
def base64Encode (bs : List Nat) : String := ⟨base64Chars bs⟩

end GoCore

namespace GoCore

/-! ## Decimal formatting (Go `strconv.Itoa`, `fmt.Sprintf` with `%020d`) -/

/-- Little-endian base-10 digits computed with a fuel argument (one
unit per division step, so `n` itself always suffices); the structural
recursion lets proofs evaluate it. -/
def natDigitsAux : Nat → Nat → List Nat
  | 0, _ => []
  | fuel + 1, n => if n = 0 then [] else n % 10 :: natDigitsAux fuel (n / 10)

/-- Little-endian base-10 digits of a natural number. -/
def natDigits (n : Nat) : List Nat := natDigitsAux n n

/-- Decimal representation of a natural number, as Go formats integers. -/
def natDecStr (n : Nat) : String :=
  if n = 0 then "0"
  else ⟨(natDigits n).reverse.map (fun d => Char.ofNat (48 + d))⟩

/-- Go `strconv.Itoa` on a (possibly negative) integer. -/
def intStr (i : Int) : String :=
  if i < 0 then "-" ++ natDecStr i.natAbs else natDecStr i.natAbs

/-- Go `fmt.Sprintf` of a `uint64` under the fixed-width format `%020d`:
the decimal digits, left-padded with zeros to width 20. -/
def pad20 (n : Nat) : String :=
  ⟨List.replicate (20 - (natDecStr n).length) '0'⟩ ++ natDecStr n

/-- Decimal value denoted by a digit string (used to state monotonicity
of the formatted incremental ids). -/
def decodeDec (s : String) : Nat :=
  s.data.foldl (fun a c => 10 * a + (c.toNat - 48)) 0

/-! ## CloudEvents enricher (src/logger/cloudevents.go) -/

/-- CloudEvents field keys (src/logger/cloudevents.go lines 35-45). -/
def CEIDKey : String := "id"

/-- CloudEvents source field key. -/
def CESourceKey : String := "source"

/-- CloudEvents specversion field key. -/
def CESpecVersionKey : String := "specversion"

/-- CloudEvents type field key. -/
def CETypeKey : String := "type"

/-- CloudEvents subject field key (possibly passes the log level). -/
def CESubjectKey : String := "subject"

/-- CloudEvents data field key (the message body). -/
def CEDataKey : String := "data"

/-- LogFields key used to pass a routing topic through WithFields. -/
def TopicKey : String := "topic"

/-- In Go `ceSetIDType` is a string type; arbitrary strings fall to the
default branch of the switches below, exactly as in the source. -/
abbrev ceSetIDType := String

/-- Message-signature (HMAC) id strategy. -/
def CEHMAC : ceSetIDType := "hmac"

/-- Random-UUID id strategy. -/
def CEUUID : ceSetIDType := "uuid"

/-- Incremental-counter id strategy. -/
def CEIncrID : ceSetIDType := "incr"

/-- Caller-supplied id strategy (set by WithFields or FilterFunc). -/
def CEFuncID : ceSetIDType := "func"

/-- CloudEvents configuration.  The Go field `Type` is renamed `CEType`
because `Type` is a Lean keyword. -/
structure CloudEventsConfiguration where
  SetID : ceSetIDType
  HMACKey : String
  Source : String
  SpecVersion : String
  CEType : String
  SetSubjectLevel : Bool

/-- Package default cloudevents configuration (src/logger/config.go
lines 83-89; no HMACKey is set there, so it defaults to the empty
string). -/
def defaultCloudEventsConfiguration : CloudEventsConfiguration :=
  { SetID := CEHMAC
    HMACKey := ""
    Source := "http://github.com/pavedroad-io/go-core/logger"
    SpecVersion := "1.0"
    CEType := "io.pavedroad.cloudevents.log"
    SetSubjectLevel := true }

/-- CloudEvents enricher state.  `incrCounter` is the `uint64` captured by
the `incrementalID` closure; `hmacAcc` is the byte stream already written
to the shared streaming `hmacHash` object (`hash.Hash` accumulates across
calls); `uuids` is an oracle stream for `uuid.NewV4` (empty stream models
a failing randomness source). -/
structure CloudEvents where
  config : CloudEventsConfiguration
  fields : Record
  incrCounter : Nat
  hmacAcc : List Nat
  uuids : List String

/-- One step of the `incrementalID` closure (src/logger/cloudevents.go
lines 58-64): increment the captured `uint64` (wrapping) and format it
zero-padded to 20 digits. -/
def incrementalIDNext (i : Nat) : Nat × String :=
  let j := (i + 1) % 18446744073709551616
  (j, pad20 j)

/-- The `newCloudEvents` constructor (src/logger/cloudevents.go lines
209-244): replace empty config strings with package defaults, build the
fixed fields map, start with a fresh hash/counter. -/
def newCloudEvents (cfg : CloudEventsConfiguration) (uuids : List String) :
    CloudEvents :=
  let config : CloudEventsConfiguration :=
    { SetID := cfg.SetID
      HMACKey := if cfg.HMACKey = "" then
          defaultCloudEventsConfiguration.HMACKey else cfg.HMACKey
      Source := if cfg.Source = "" then
          defaultCloudEventsConfiguration.Source else cfg.Source
      SpecVersion := if cfg.SpecVersion = "" then
          defaultCloudEventsConfiguration.SpecVersion else cfg.SpecVersion
      CEType := if cfg.CEType = "" then
          defaultCloudEventsConfiguration.CEType else cfg.CEType
      SetSubjectLevel := cfg.SetSubjectLevel }
  { config := config
    fields := [(CESourceKey, .str config.Source),
               (CESpecVersionKey, .str config.SpecVersion),
               (CETypeKey, .str config.CEType)]
    incrCounter := 0
    hmacAcc := []
    uuids := uuids }

/-- The `ceGetID` method (src/logger/cloudevents.go lines 247-267):
compute the cloudevents id for a message.  The HMAC branch writes the
message body into the shared streaming hash and sums it, so the digest
covers the concatenation of every body hashed so far; the body read
`msgMap[CEDataKey].(string)` is an unguarded type assertion and panics
when the data field is absent or not a string. -/
def ceGetID (ce : CloudEvents) (msgMap : Record) :
    Outcome (String × CloudEvents) :=
  if ce.config.SetID = CEFuncID then .ok ("", ce)
  else if ce.config.SetID = CEIncrID then
    let (j, s) := incrementalIDNext ce.incrCounter
    .ok (s, { ce with incrCounter := j })
  else if ce.config.SetID = CEUUID then
    match ce.uuids with
    | [] => .err "uuid: randomness source failed"
    | u :: rest => .ok (u, { ce with uuids := rest })
  else
    match lookupF msgMap CEDataKey with
    | some (.str body) =>
      let acc := ce.hmacAcc ++ strBytes body
      .ok (base64Encode (hmacSHA256 (strBytes ce.config.HMACKey) acc),
           { ce with hmacAcc := acc })
    | _ => .panicked "interface conversion: interface is not string"

/-- The `ceAddFields` method (src/logger/cloudevents.go lines 270-279):
compute the id via `ceGetID`, then unconditionally write it into the
message map under the `id` key. -/
def ceAddFields (ce : CloudEvents) (msgMap : Record) :
    Outcome (Record × CloudEvents) :=
  match ceGetID ce msgMap with
  | .ok (idv, ce') => .ok (insertF msgMap CEIDKey (.str idv), ce')
  | .err e => .err e
  | .panicked e => .panicked e

end GoCore

namespace GoCore

/-! ## Kafka producer wrapper (src/unnamed/part_005 lines 607-808) -/

/-- In Go `kafkaKeyType` is a string type; strings other than the six
named constants fall to the default branch of the key switch. -/
abbrev kafkaKeyType := String

/-- Level-based key strategy (the default). -/
def LevelKey : kafkaKeyType := "level"

/-- Wall-clock-second key strategy. -/
def TimeSecondKey : kafkaKeyType := "second"

/-- Wall-clock-nanosecond key strategy. -/
def TimeNanoSecondKey : kafkaKeyType := "nanosecond"

/-- Fixed-string key strategy. -/
def FixedKey : kafkaKeyType := "fixed"

/-- Extract-a-field key strategy. -/
def ExtractedKey : kafkaKeyType := "extracted"

/-- Caller-supplied key-function strategy. -/
def FunctionKey : kafkaKeyType := "function"

/-- Producer configuration.  Only the fields the message path reads are
modelled; the remaining fields (partitioner, compression, acks, retry
counters, TLS) are translated verbatim into settings of the external
sarama client at construction and never consulted again.  `FilterFunc`
mutates the message map in place; `KeyFunc` may mutate it and returns
the key string. -/
structure ProducerConfiguration where
  Brokers : List String
  Topic : String
  Key : kafkaKeyType
  KeyName : String
  filterFn : Option (Record → Record)
  keyFn : Option (Record → String × Record)

/-- Package default producer configuration (src/logger/config.go lines
66-81). -/
def defaultProducerConfiguration : ProducerConfiguration :=
  { Brokers := ["localhost:9092"]
    Topic := "logs"
    Key := FixedKey
    KeyName := "username"
    filterFn := none
    keyFn := none }

/-- Kafka producer wrapper state (part_005 lines 597-604). -/
structure KafkaProducer where
  config : ProducerConfiguration
  cloudEvents : Option CloudEvents
  enableCE : Bool
  levelKey : String

/-- The `newKafkaProducer` constructor (part_005 lines 607-701): enable
cloudevents when an enricher is supplied, remap the level key to
`subject` when the enricher overloads it, and substitute package
defaults for an empty broker list, empty topic, and (under the fixed
strategy) an empty key name.  The construction of the external sarama
client, which may fail for connectivity reasons, is outside the model. -/
def newKafkaProducer (config : ProducerConfiguration)
    (cloudEvents : Option CloudEvents)
    (ceConfig : CloudEventsConfiguration) : KafkaProducer :=
  let enableCE := cloudEvents.isSome
  let levelKey :=
    if cloudEvents.isSome ∧ ceConfig.SetSubjectLevel then CESubjectKey
    else "level"
  let c1 := if config.Brokers.length = 0 ∨ config.Brokers.headD "" = "" then
      { config with Brokers := defaultProducerConfiguration.Brokers }
    else config
  let c2 := if c1.Topic = "" then
      { c1 with Topic := defaultProducerConfiguration.Topic }
    else c1
  let c3 := if c2.Key = FixedKey ∧ c2.KeyName = "" then
      { c2 with KeyName := defaultProducerConfiguration.KeyName }
    else c2
  { config := c3
    cloudEvents := cloudEvents
    enableCE := enableCE
    levelKey := levelKey }

/-- Wall-clock readings for the two time-based key strategies
(`time.Now().Unix()` and `time.Now().UnixNano()`). -/
structure Env where
  nowUnix : Int
  nowUnixNano : Int

/-- The `getKey` method (part_005 lines 713-743): derive the partition
key, possibly mutating the message map (the extracted strategy deletes
the consumed field; a key function may mutate arbitrarily).  The
function strategy falls through to the level branch when no key
function is registered, as does any unrecognized strategy string; the
level branch reads `msgMap[kp.levelKey].(string)` with an unguarded
type assertion that panics when the field is absent or not a string. -/
def getKey (env : Env) (kp : KafkaProducer) (msgMap : Record) :
    Outcome (String × Record) :=
  if kp.config.Key = FixedKey then .ok (kp.config.KeyName, msgMap)
  else if kp.config.Key = ExtractedKey then
    match asString (lookupF msgMap kp.config.KeyName) with
    | some name => .ok (name, eraseF msgMap kp.config.KeyName)
    | none => .err "Extracted key missing"
  else if kp.config.Key = TimeSecondKey then .ok (intStr env.nowUnix, msgMap)
  else if kp.config.Key = TimeNanoSecondKey then
    .ok (intStr env.nowUnixNano, msgMap)
  else
    match (if kp.config.Key = FunctionKey then kp.config.keyFn else none) with
    | some f => .ok (f msgMap)
    | none =>
      match asString (lookupF msgMap kp.levelKey) with
      | some s => .ok (s, msgMap)
      | none => .panicked "interface conversion: interface is not string"

/-- A message handed to the sarama client input channel. -/
structure ProducerMessage where
  Topic : String
  Key : String
  Value : Record

/-- A payload byte slice, modelled at the `encoding/json` interface
boundary: either bytes the decoder rejects, or bytes it decodes into
the given message map. -/
inductive Payload where
  | malformed (raw : String)
  | object (raw : String) (fields : Record)

/-- Go `json.Unmarshal(msg, &msgMap)` at its interface boundary. -/
def jsonUnmarshal : Payload → Outcome Record
  | .malformed _ => .err "invalid JSON payload"
  | .object _ r => .ok r

/-- The bytes of a payload (for the writer's `len(msg)` return value). -/
def payloadBytes : Payload → List Nat
  | .malformed raw => strBytes raw
  | .object raw _ => strBytes raw

/-- Go `json.Marshal(msgMap)` on a map obtained from decoding: it cannot
fail (every decoded value is serializable) and emits exactly the map's
entries, so the serialized value is modelled by the record itself. -/
def jsonMarshal (m : Record) : Record := m

/-- The `sendMessage` method (part_005 lines 746-796), transliterated:
unmarshal, capture the routing topic (deleting the sidecar field),
derive the key via `getKey`, run the filter hook, add cloudevents
fields, re-marshal, and submit; the final `topic.(string)` assertion
panics on a non-string sidecar topic value. -/
def sendMessage (env : Env) (kp : KafkaProducer) (msg : Payload) :
    Outcome (ProducerMessage × KafkaProducer) :=
  match jsonUnmarshal msg with
  | .err e => .err e
  | .panicked e => .panicked e
  | .ok msgMap0 =>
    let tm : JValue × Record :=
      match lookupF msgMap0 TopicKey with
      | some v => (v, eraseF msgMap0 TopicKey)
      | none => (.str kp.config.Topic, msgMap0)
    match getKey env kp tm.2 with
    | .err e => .err e
    | .panicked e => .panicked e
    | .ok (key, msgMap1) =>
      let msgMap2 :=
        match kp.config.filterFn with
        | some f => f msgMap1
        | none => msgMap1
      let ceRes : Outcome (Record × Option CloudEvents) :=
        if kp.enableCE then
          match kp.cloudEvents with
          | some ce =>
            match ceAddFields ce msgMap2 with
            | .ok (m, ce') => .ok (m, some ce')
            | .err e => .err e
            | .panicked e => .panicked e
          | none => .panicked "invalid memory address or nil pointer dereference"
        else .ok (msgMap2, kp.cloudEvents)
      match ceRes with
      | .err e => .err e
      | .panicked e => .panicked e
      | .ok (msgMap3, ce') =>
        match tm.1 with
        | .str t =>
          .ok ({ Topic := t, Key := key, Value := jsonMarshal msgMap3 },
               { kp with cloudEvents := ce' })
        | _ => .panicked "interface conversion: interface is not string"

end GoCore

namespace GoCore

/-! ## The pipeline steps of sendMessage, as separate functions -/

/-- Step 2 of `sendMessage`: capture the routing topic from the sidecar
field if present (deleting it from the map), else use the configured
default topic.  The captured value is still dynamically typed; it is
asserted to a string only at submission. -/
def captureTopic (defaultTopic : String) (m : Record) : JValue × Record :=
  match lookupF m TopicKey with
  | some v => (v, eraseF m TopicKey)
  | none => (.str defaultTopic, m)

/-- Step 4 of `sendMessage`: run the filter hook, if registered, for
arbitrary field manipulation. -/
def applyFilter (fn : Option (Record → Record)) (m : Record) : Record :=
  match fn with
  | some f => f m
  | none => m

/-- Step 5 of `sendMessage`: cloudevents enrichment when enabled.  A
producer flagged `enableCE` without an enricher would dereference a nil
pointer in Go. -/
def ceEnrich (enable : Bool) (ceo : Option CloudEvents) (m : Record) :
    Outcome (Record × Option CloudEvents) :=
  if enable then
    match ceo with
    | some ce =>
      match ceAddFields ce m with
      | .ok (m2, ce') => .ok (m2, some ce')
      | .err e => .err e
      | .panicked e => .panicked e
    | none => .panicked "invalid memory address or nil pointer dereference"
  else .ok (m, ceo)

/-- Step 7 of `sendMessage`: build the sarama message, asserting the
captured topic to a string. -/
def submitMessage (topic : JValue) (key : String) (value : Record) :
    Outcome ProducerMessage :=
  match topic with
  | .str t => .ok { Topic := t, Key := key, Value := value }
  | _ => .panicked "interface conversion: interface is not string"

/-- The send pipeline assembled from the individual steps, in the order
the specification fixes: unmarshal, topic capture, key derivation,
filter hook, cloudevents enrichment, re-marshal, submission. -/
def sendMessagePipeline (env : Env) (kp : KafkaProducer) (msg : Payload) :
    Outcome (ProducerMessage × KafkaProducer) :=
  match jsonUnmarshal msg with
  | .err e => .err e
  | .panicked e => .panicked e
  | .ok m0 =>
    let tm := captureTopic kp.config.Topic m0
    match getKey env kp tm.2 with
    | .err e => .err e
    | .panicked e => .panicked e
    | .ok (key, m1) =>
      let m2 := applyFilter kp.config.filterFn m1
      match ceEnrich kp.enableCE kp.cloudEvents m2 with
      | .err e => .err e
      | .panicked e => .panicked e
      | .ok (m3, ce') =>
        match submitMessage tm.1 key (jsonMarshal m3) with
        | .ok pm => .ok (pm, { kp with cloudEvents := ce' })
        | .err e => .err e
        | .panicked e => .panicked e

/-! ## The client input channel and the lifecycle-safe writer -/

/-- A producer wrapper together with the sarama client input channel it
feeds (the channel is modelled as the list of messages submitted to
it). -/
structure KafkaState where
  kp : KafkaProducer
  input : List ProducerMessage

/-- Run one `sendMessage` call against a producer and its input channel:
on success the message is appended to the channel; a returned error or a
panic submits nothing. -/
def runSendMessage (env : Env) (st : KafkaState) (msg : Payload) :
    KafkaState × Outcome Unit :=
  match sendMessage env st.kp msg with
  | .ok (pm, kp') => ({ kp := kp', input := st.input ++ [pm] }, .ok ())
  | .err e => (st, .err e)
  | .panicked e => (st, .panicked e)

/-- Errors surfaced by the lifecycle-safe writer. -/
inductive WriteError where
  | EINVAL
  | noProducer
  | sendErr (e : String)
deriving DecidableEq, Repr

/-- The `ZapKafkaWriter` (src/logger/zap_writer.go lines 13-18): the
closed flag (`int32` accessed atomically, nonzero when closing) plus the
wrapped producer; `producerDefined` models the `zw.kp.producer == nil`
check.  The pending-writes waitgroup is balanced within every `Write`
call and needs no representation in the sequential model. -/
structure ZapKafkaWriter where
  closed : Bool
  producerDefined : Bool
  st : KafkaState

/-- The `Closed` method (zap_writer.go lines 60-62). -/
def ZapKafkaWriter.Closed (zw : ZapKafkaWriter) : Bool := zw.closed

/-- The `Write` method (zap_writer.go lines 43-57): fail with
`syscall.EINVAL` when the writer is closed, with a producer error when
no producer is defined, otherwise deliver through `sendMessage` and
return `len(msg)` with its error. -/
def ZapKafkaWriter.Write (env : Env) (zw : ZapKafkaWriter) (msg : Payload) :
    Outcome (Nat × Option WriteError) × ZapKafkaWriter :=
  if zw.Closed then (.ok (0, some WriteError.EINVAL), zw)
  else if !zw.producerDefined then (.ok (0, some WriteError.noProducer), zw)
  else
    match runSendMessage env zw.st msg with
    | (st', .ok _) =>
      (.ok ((payloadBytes msg).length, none), { zw with st := st' })
    | (st', .err e) =>
      (.ok ((payloadBytes msg).length, some (WriteError.sendErr e)),
       { zw with st := st' })
    | (_, .panicked e) => (.panicked e, zw)

/-- The `Close` method (zap_writer.go lines 65-77): return
`syscall.EINVAL` when already closed, else set the closed flag, wait for
pending writes (immediate in the sequential model), and succeed. -/
def ZapKafkaWriter.Close (zw : ZapKafkaWriter) :
    Option WriteError × ZapKafkaWriter :=
  if zw.Closed then (some WriteError.EINVAL, zw)
  else (none, { zw with closed := true })

end GoCore

namespace GoCore

/-! ## Association-list lemmas -/

theorem lookupF_eraseF (m : Record) (k t : String) :
    lookupF (eraseF m k) t = if k = t then none else lookupF m t := by
  induction m with
  | nil => simp [lookupF, eraseF]
  | cons kv rest ih =>
    obtain ⟨k', v⟩ := kv
    by_cases hk : k' = k
    · subst hk
      have he : eraseF ((k', v) :: rest) k' = eraseF rest k' := by
        simp [eraseF, List.filter_cons]
      rw [he, ih]
      by_cases ht : k' = t <;> simp [lookupF, ht]
    · have he : eraseF ((k', v) :: rest) k = (k', v) :: eraseF rest k := by
        simp [eraseF, List.filter_cons, hk]
      rw [he]
      by_cases ht : k' = t
      · subst ht
        have hkt : ¬ k = k' := fun h => hk h.symm
        simp [lookupF, hkt]
      · simp [lookupF, ht, ih]

theorem lookupF_append (l1 l2 : Record) (t : String) :
    lookupF (l1 ++ l2) t =
      match lookupF l1 t with
      | some v => some v
      | none => lookupF l2 t := by
  induction l1 with
  | nil => simp [lookupF]
  | cons kv rest ih =>
    obtain ⟨k', v⟩ := kv
    by_cases h : k' = t
    · simp [lookupF, h]
    · simp [lookupF, h, ih]

theorem lookupF_insertF_self (m : Record) (k : String) (v : JValue) :
    lookupF (insertF m k v) k = some v := by
  simp [insertF, lookupF_append, lookupF_eraseF, lookupF]

theorem lookupF_insertF_ne (m : Record) (k t : String) (v : JValue)
    (h : k ≠ t) : lookupF (insertF m k v) t = lookupF m t := by
  rw [insertF, lookupF_append, lookupF_eraseF, if_neg h]
  cases hl : lookupF m t <;> simp [lookupF, h, hl]

end GoCore

namespace GoCore

/-! ## Claim C3: the extracted key strategy -/

/-- C3: for every record that contains the configured key-field name
bound to a string value, the extracted strategy returns that string as
the partition key and removes the field from the record; when the field
is absent or not a string it fails with the missing-key error. -/
theorem getKey_extracted_spec : ∀ (env : Env) (kp : KafkaProducer) (m : Record),
    kp.config.Key = ExtractedKey →
    (∀ v, lookupF m kp.config.KeyName = some (JValue.str v) →
      getKey env kp m = .ok (v, eraseF m kp.config.KeyName)) ∧
    (asString (lookupF m kp.config.KeyName) = none →
      getKey env kp m = .err "Extracted key missing") := by
  intro env kp m hk
  have hne : ¬ (kp.config.Key = FixedKey) := by
    rw [hk]; decide
  constructor
  · intro v hv
    rw [getKey, if_neg hne, if_pos hk, hv]
    rfl
  · intro hv
    rw [getKey, if_neg hne, if_pos hk, hv]

/-- Concrete producer configured with the extracted key strategy on the
field named subject. -/
def c3kp : KafkaProducer :=
  { config := { Brokers := ["localhost:9092"], Topic := "logs",
                Key := ExtractedKey, KeyName := "subject",
                filterFn := none, keyFn := none }
    cloudEvents := none
    enableCE := false
    levelKey := "level" }

/-- Witness for C3 at the record of spec property P2. -/
theorem getKey_extracted_spec_witness :
    c3kp.config.Key = ExtractedKey ∧
    lookupF [("subject", JValue.str "errlevel"), ("data", JValue.str "x")]
      c3kp.config.KeyName = some (JValue.str "errlevel") ∧
    getKey { nowUnix := 0, nowUnixNano := 0 } c3kp
      [("subject", JValue.str "errlevel"), ("data", JValue.str "x")] =
      .ok ("errlevel", [("data", JValue.str "x")]) ∧
    asString (lookupF [("data", JValue.str "x")] c3kp.config.KeyName) = none ∧
    getKey { nowUnix := 0, nowUnixNano := 0 } c3kp [("data", JValue.str "x")] =
      .err "Extracted key missing" := by
  refine ⟨rfl, rfl, ?_, rfl, ?_⟩
  · exact (getKey_extracted_spec { nowUnix := 0, nowUnixNano := 0 } c3kp
      [("subject", JValue.str "errlevel"), ("data", JValue.str "x")] rfl).1
      "errlevel" rfl
  · exact (getKey_extracted_spec { nowUnix := 0, nowUnixNano := 0 } c3kp
      [("data", JValue.str "x")] rfl).2 rfl

/-! ## Claim C9: the lifecycle-safe writer -/

/-- C9: a first Close on an open writer succeeds and sets the closed
flag; on a closed writer every Write returns the invalid-state error
with the producer state (and hence the client input channel) untouched,
and Close returns the already-closed error; Write never changes the
closed flag, and Close always leaves it set. -/
theorem zapWriter_lifecycle : ∀ (env : Env) (zw : ZapKafkaWriter) (msg : Payload),
    (zw.Closed = false → zw.Close = (none, { zw with closed := true })) ∧
    (zw.Closed = true →
      ZapKafkaWriter.Write env zw msg = (.ok (0, some WriteError.EINVAL), zw) ∧
      zw.Close = (some WriteError.EINVAL, zw)) ∧
    (ZapKafkaWriter.Write env zw msg).2.closed = zw.closed ∧
    (zw.Close).2.closed = true := by
  intro env zw msg
  refine ⟨?_, ?_, ?_, ?_⟩
  · intro h
    replace h : zw.closed = false := h
    simp [ZapKafkaWriter.Close, ZapKafkaWriter.Closed, h]
  · intro h
    replace h : zw.closed = true := h
    constructor
    · simp [ZapKafkaWriter.Write, ZapKafkaWriter.Closed, h]
    · simp [ZapKafkaWriter.Close, ZapKafkaWriter.Closed, h]
  · by_cases h : zw.closed
    · simp [ZapKafkaWriter.Write, ZapKafkaWriter.Closed, h]
    · by_cases hp : zw.producerDefined
      · rw [ZapKafkaWriter.Write]
        simp only [ZapKafkaWriter.Closed, h, if_false, hp, Bool.not_true,
          Bool.false_eq_true]
        rcases hr : runSendMessage env zw.st msg with ⟨st', out⟩
        cases out <;> simp [hr, h, hp]
      · simp [ZapKafkaWriter.Write, ZapKafkaWriter.Closed, h, hp]
  · by_cases h : zw.closed <;>
      simp [ZapKafkaWriter.Close, ZapKafkaWriter.Closed, h]

/-- Concrete open writer over a fixed-key producer with an empty input
channel. -/
def c9zw : ZapKafkaWriter :=
  { closed := false
    producerDefined := true
    st := { kp := { config := { Brokers := ["localhost:9092"], Topic := "logs",
                                Key := FixedKey, KeyName := "svc1",
                                filterFn := none, keyFn := none }
                    cloudEvents := none, enableCE := false, levelKey := "level" }
            input := [] } }

/-- Witness for C9: closing the open writer succeeds; on the resulting
closed writer a Write fails with the invalid-state error leaving the
state untouched and a second Close fails with the already-closed
error. -/
theorem zapWriter_lifecycle_witness :
    c9zw.Close = (none, { c9zw with closed := true }) ∧
    ZapKafkaWriter.Write { nowUnix := 0, nowUnixNano := 0 }
      { c9zw with closed := true } (.object "b" [("level", JValue.str "info")]) =
      (.ok (0, some WriteError.EINVAL), { c9zw with closed := true }) ∧
    ZapKafkaWriter.Close { c9zw with closed := true } =
      (some WriteError.EINVAL, { c9zw with closed := true }) := by
  refine ⟨?_, ?_, ?_⟩
  · exact (zapWriter_lifecycle { nowUnix := 0, nowUnixNano := 0 } c9zw
      (.object "b" [("level", JValue.str "info")])).1 rfl
  · exact ((zapWriter_lifecycle { nowUnix := 0, nowUnixNano := 0 }
      { c9zw with closed := true }
      (.object "b" [("level", JValue.str "info")])).2.1 rfl).1
  · exact ((zapWriter_lifecycle { nowUnix := 0, nowUnixNano := 0 }
      { c9zw with closed := true }
      (.object "b" [("level", JValue.str "info")])).2.1 rfl).2

end GoCore

namespace GoCore

/-! ## Claim C10: unguarded level-key type assertion -/

/-- C10: when the key strategy is level (the default), or function with
no key hook registered, and the record accepted by the JSON decoder has
no string value under the producer's level key after topic capture,
`sendMessage` panics on the unguarded type assertion instead of
returning an error. -/
theorem sendMessage_level_panics : ∀ (env : Env) (kp : KafkaProducer)
    (raw : String) (r : Record),
    (kp.config.Key = LevelKey ∨
      (kp.config.Key = FunctionKey ∧ kp.config.keyFn = none)) →
    asString (lookupF (captureTopic kp.config.Topic r).2 kp.levelKey) = none →
    sendMessage env kp (.object raw r) =
      .panicked "interface conversion: interface is not string" := by
  intro env kp raw r hk hl
  have hgk : getKey env kp (captureTopic kp.config.Topic r).2 =
      .panicked "interface conversion: interface is not string" := by
    rcases hk with hk | ⟨hk, hf⟩
    · have h1 : ¬ (kp.config.Key = FixedKey) := by rw [hk]; decide
      have h2 : ¬ (kp.config.Key = ExtractedKey) := by rw [hk]; decide
      have h3 : ¬ (kp.config.Key = TimeSecondKey) := by rw [hk]; decide
      have h4 : ¬ (kp.config.Key = TimeNanoSecondKey) := by rw [hk]; decide
      have h5 : ¬ (kp.config.Key = FunctionKey) := by rw [hk]; decide
      rw [getKey, if_neg h1, if_neg h2, if_neg h3, if_neg h4, if_neg h5]
      simp only
      rw [hl]
    · have h1 : ¬ (kp.config.Key = FixedKey) := by rw [hk]; decide
      have h2 : ¬ (kp.config.Key = ExtractedKey) := by rw [hk]; decide
      have h3 : ¬ (kp.config.Key = TimeSecondKey) := by rw [hk]; decide
      have h4 : ¬ (kp.config.Key = TimeNanoSecondKey) := by rw [hk]; decide
      rw [getKey, if_neg h1, if_neg h2, if_neg h3, if_neg h4, if_pos hk, hf]
      simp only
      rw [hl]
  rw [sendMessage]
  simp only [jsonUnmarshal]
  cases hT : lookupF r TopicKey with
  | none =>
    have hc : (captureTopic kp.config.Topic r).2 = r := by
      simp [captureTopic, hT]
    rw [hc] at hgk
    simp only [hT, hgk]
  | some v =>
    have hc : (captureTopic kp.config.Topic r).2 = eraseF r TopicKey := by
      simp [captureTopic, hT]
    rw [hc] at hgk
    simp only [hT, hgk]

/-- Concrete producer with the default level key strategy and no
cloudevents enricher. -/
def c10kp : KafkaProducer :=
  { config := { Brokers := ["localhost:9092"], Topic := "logs",
                Key := LevelKey, KeyName := "",
                filterFn := none, keyFn := none }
    cloudEvents := none
    enableCE := false
    levelKey := "level" }

/-- Witness for C10: a decodable record with no level field makes
`sendMessage` panic. -/
theorem sendMessage_level_panics_witness :
    (c10kp.config.Key = LevelKey ∨
      (c10kp.config.Key = FunctionKey ∧ c10kp.config.keyFn = none)) ∧
    asString (lookupF (captureTopic c10kp.config.Topic
      [("data", JValue.str "x")]).2 c10kp.levelKey) = none ∧
    sendMessage { nowUnix := 0, nowUnixNano := 0 } c10kp
      (.object "b" [("data", JValue.str "x")]) =
      .panicked "interface conversion: interface is not string" := by
  refine ⟨Or.inl rfl, rfl, ?_⟩
  exact sendMessage_level_panics { nowUnix := 0, nowUnixNano := 0 } c10kp
    "b" [("data", JValue.str "x")] (Or.inl rfl) rfl

/-! ## Claim C2: pre-submission errors are atomic -/

/-- C2: a malformed payload and a missing extracted-key field make
`sendMessage` return the corresponding error, and on any error outcome
the client input channel receives zero messages and the producer state
is unchanged. -/
theorem runSendMessage_error_atomic :
    (∀ (env : Env) (st : KafkaState) (raw : String),
      runSendMessage env st (.malformed raw) = (st, .err "invalid JSON payload")) ∧
    (∀ (env : Env) (st : KafkaState) (raw : String) (r : Record),
      st.kp.config.Key = ExtractedKey →
      asString (lookupF (captureTopic st.kp.config.Topic r).2
        st.kp.config.KeyName) = none →
      runSendMessage env st (.object raw r) = (st, .err "Extracted key missing")) ∧
    (∀ (env : Env) (st : KafkaState) (msg : Payload) (e : String),
      (runSendMessage env st msg).2 = .err e →
      (runSendMessage env st msg).1 = st) := by
  refine ⟨?_, ?_, ?_⟩
  · intro env st raw
    rfl
  · intro env st raw r hk hl
    have hgk : getKey env st.kp (captureTopic st.kp.config.Topic r).2 =
        .err "Extracted key missing" :=
      (getKey_extracted_spec env st.kp (captureTopic st.kp.config.Topic r).2 hk).2 hl
    rw [runSendMessage]
    have hsm : sendMessage env st.kp (.object raw r) = .err "Extracted key missing" := by
      rw [sendMessage]
      simp only [jsonUnmarshal]
      cases hT : lookupF r TopicKey with
      | none =>
        have hc : (captureTopic st.kp.config.Topic r).2 = r := by
          simp [captureTopic, hT]
        rw [hc] at hgk
        simp only [hT, hgk]
      | some v =>
        have hc : (captureTopic st.kp.config.Topic r).2 = eraseF r TopicKey := by
          simp [captureTopic, hT]
        rw [hc] at hgk
        simp only [hT, hgk]
    rw [hsm]
  · intro env st msg e
    rw [runSendMessage]
    cases hs : sendMessage env st.kp msg with
    | ok v => intro hcon; cases hcon
    | err e2 => intro _; rfl
    | panicked e2 => intro hcon; cases hcon

/-- Concrete state for the C2 witness: an extracted-key producer with an
empty input channel. -/
def c2st : KafkaState :=
  { kp := { config := { Brokers := ["localhost:9092"], Topic := "logs",
                        Key := ExtractedKey, KeyName := "subject",
                        filterFn := none, keyFn := none }
            cloudEvents := none, enableCE := false, levelKey := "level" }
    input := [] }

/-- Witness for C2: a malformed payload and a record lacking the
extracted field both abort with the channel left empty. -/
theorem runSendMessage_error_atomic_witness :
    runSendMessage { nowUnix := 0, nowUnixNano := 0 } c2st (.malformed "oops") =
      (c2st, .err "invalid JSON payload") ∧
    c2st.kp.config.Key = ExtractedKey ∧
    asString (lookupF (captureTopic c2st.kp.config.Topic
      [("data", JValue.str "x")]).2 c2st.kp.config.KeyName) = none ∧
    runSendMessage { nowUnix := 0, nowUnixNano := 0 } c2st
      (.object "b" [("data", JValue.str "x")]) =
      (c2st, .err "Extracted key missing") ∧
    (runSendMessage { nowUnix := 0, nowUnixNano := 0 } c2st
      (.object "b" [("data", JValue.str "x")])).1 = c2st := by
  refine ⟨runSendMessage_error_atomic.1 { nowUnix := 0, nowUnixNano := 0 } c2st "oops",
    rfl, rfl,
    runSendMessage_error_atomic.2.1 { nowUnix := 0, nowUnixNano := 0 } c2st
      "b" [("data", JValue.str "x")] rfl rfl,
    runSendMessage_error_atomic.2.2 { nowUnix := 0, nowUnixNano := 0 } c2st
      (.object "b" [("data", JValue.str "x")]) "Extracted key missing" ?_⟩
  rw [runSendMessage_error_atomic.2.1 { nowUnix := 0, nowUnixNano := 0 } c2st
      "b" [("data", JValue.str "x")] rfl rfl]

end GoCore

namespace GoCore

/-! ## Claim C1: processing order of sendMessage -/

/-- Helper: `sendMessage` coincides with the pipeline composed of its
separately-defined steps in the order topic capture, key derivation,
filter hook, cloudevents enrichment, re-marshal, submission. -/
theorem sendMessage_eq_pipeline : ∀ (env : Env) (kp : KafkaProducer) (msg : Payload),
    sendMessage env kp msg = sendMessagePipeline env kp msg := by
  intro env kp msg
  cases msg with
  | malformed raw => rfl
  | object raw r =>
    rw [sendMessage, sendMessagePipeline]
    simp only [jsonUnmarshal]
    cases hT : lookupF r TopicKey with
    | none =>
      simp only [captureTopic, hT]
      cases hK : getKey env kp r with
      | err e => rfl
      | panicked e => rfl
      | ok kv =>
        obtain ⟨key, m1⟩ := kv
        simp only [applyFilter, ceEnrich]
        rfl
    | some v =>
      simp only [captureTopic, hT]
      cases hK : getKey env kp (eraseF r TopicKey) with
      | err e => rfl
      | panicked e => rfl
      | ok kv =>
        obtain ⟨key, m1⟩ := kv
        simp only [applyFilter, ceEnrich]
        by_cases hE : kp.enableCE
        · simp only [hE, if_true]
          cases hCE : kp.cloudEvents with
          | none => cases v <;> rfl
          | some ce =>
            cases hA : ceAddFields ce
                (match kp.config.filterFn with | some f => f m1 | none => m1) with
            | ok mc => obtain ⟨m3, ce2⟩ := mc; cases v <;> rfl
            | err e => cases v <;> rfl
            | panicked e => cases v <;> rfl
        · simp only [hE, if_false]
          cases v <;> rfl

/-- C1: `sendMessage` applies its steps in exactly the order topic
capture, key derivation, filter hook, envelope enrichment,
re-serialization, submission (first conjunct: it equals the pipeline of
the separately-defined steps composed in that order, so the key is
derived from the record before the filter hook and the envelope id run);
and under the HMAC strategy the envelope id written into the submitted
value is the digest of the message body read from the record after the
filter hook's mutations (second conjunct). -/
theorem sendMessage_pipeline_order :
    (∀ (env : Env) (kp : KafkaProducer) (msg : Payload),
      sendMessage env kp msg = sendMessagePipeline env kp msg) ∧
    (∀ (env : Env) (kp : KafkaProducer) (raw t key : String)
        (r m1 : Record) (ce : CloudEvents) (body : String),
      kp.enableCE = true →
      kp.cloudEvents = some ce →
      ce.config.SetID ≠ CEFuncID →
      ce.config.SetID ≠ CEIncrID →
      ce.config.SetID ≠ CEUUID →
      (captureTopic kp.config.Topic r).1 = JValue.str t →
      getKey env kp (captureTopic kp.config.Topic r).2 = .ok (key, m1) →
      lookupF (applyFilter kp.config.filterFn m1) CEDataKey = some (JValue.str body) →
      sendMessage env kp (.object raw r) =
        .ok ({ Topic := t, Key := key,
               Value := insertF (applyFilter kp.config.filterFn m1) CEIDKey
                 (JValue.str (base64Encode (hmacSHA256
                    (strBytes ce.config.HMACKey) (ce.hmacAcc ++ strBytes body)))) },
             { kp with
                 cloudEvents := some { ce with hmacAcc := ce.hmacAcc ++ strBytes body } })) := by
  constructor
  · exact sendMessage_eq_pipeline
  · intro env kp raw t key r m1 ce body hE hCE h1 h2 h3 hT hK hB
    have hid : ceGetID ce (applyFilter kp.config.filterFn m1) =
        .ok (base64Encode (hmacSHA256 (strBytes ce.config.HMACKey)
               (ce.hmacAcc ++ strBytes body)),
             { ce with hmacAcc := ce.hmacAcc ++ strBytes body }) := by
      rw [ceGetID, if_neg h1, if_neg h2, if_neg h3, hB]
    have hadd : ceAddFields ce (applyFilter kp.config.filterFn m1) =
        .ok (insertF (applyFilter kp.config.filterFn m1) CEIDKey
               (JValue.str (base64Encode (hmacSHA256 (strBytes ce.config.HMACKey)
                 (ce.hmacAcc ++ strBytes body)))),
             { ce with hmacAcc := ce.hmacAcc ++ strBytes body }) := by
      rw [ceAddFields, hid]
    rw [sendMessage_eq_pipeline, sendMessagePipeline]
    simp only [jsonUnmarshal, hK]
    simp only [ceEnrich, hE, hCE, if_true, hadd]
    simp only [hT, submitMessage, jsonMarshal]

/-- Concrete enricher for the C1 witness: HMAC strategy with secret k
and a fresh hash. -/
def c1ce : CloudEvents :=
  newCloudEvents { SetID := CEHMAC, HMACKey := "k", Source := "",
                   SpecVersion := "", CEType := "", SetSubjectLevel := false } []

/-- Concrete producer for the C1 witness: level key strategy and a
filter hook that rewrites the message body from x to y. -/
def c1kp : KafkaProducer :=
  { config := { Brokers := ["localhost:9092"], Topic := "logs",
                Key := LevelKey, KeyName := "",
                filterFn := some (fun m => insertF m CEDataKey (JValue.str "y")),
                keyFn := none }
    cloudEvents := some c1ce
    enableCE := true
    levelKey := "level" }

/-- Record for the C1 witness. -/
def c1rec : Record := [("level", JValue.str "info"), ("data", JValue.str "x")]

/-- Witness for C1: with a filter hook that replaces the body x by y,
the delivered envelope id is the HMAC digest of y, the post-filter body,
not of x. -/
theorem sendMessage_pipeline_order_witness :
    c1kp.enableCE = true ∧
    c1kp.cloudEvents = some c1ce ∧
    c1ce.config.SetID ≠ CEFuncID ∧
    (captureTopic c1kp.config.Topic c1rec).1 = JValue.str "logs" ∧
    getKey { nowUnix := 0, nowUnixNano := 0 } c1kp
      (captureTopic c1kp.config.Topic c1rec).2 = .ok ("info", c1rec) ∧
    lookupF (applyFilter c1kp.config.filterFn c1rec) CEDataKey =
      some (JValue.str "y") ∧
    sendMessage { nowUnix := 0, nowUnixNano := 0 } c1kp (.object "b" c1rec) =
      .ok ({ Topic := "logs", Key := "info",
             Value := insertF (applyFilter c1kp.config.filterFn c1rec) CEIDKey
               (JValue.str (base64Encode (hmacSHA256
                  (strBytes c1ce.config.HMACKey) (c1ce.hmacAcc ++ strBytes "y")))) },
           { c1kp with
               cloudEvents := some { c1ce with hmacAcc := c1ce.hmacAcc ++ strBytes "y" } }) := by
  refine ⟨rfl, rfl, by decide, rfl, rfl, rfl, ?_⟩
  exact sendMessage_pipeline_order.2 { nowUnix := 0, nowUnixNano := 0 } c1kp
    "b" "logs" "info" c1rec c1rec c1ce "y" rfl rfl (by decide) (by decide)
    (by decide) rfl rfl rfl

end GoCore

namespace GoCore

/-! ## Claim C7: the caller-function id strategy -/

/-- Concrete enricher configured with the caller-function id strategy. -/
def c7ce : CloudEvents :=
  newCloudEvents { SetID := CEFuncID, HMACKey := "", Source := "",
                   SpecVersion := "", CEType := "", SetSubjectLevel := true } []

/-- Record carrying a caller-supplied id, as the caller-function
strategy documents (set by WithFields or FilterFunc). -/
def c7rec : Record :=
  [("data", JValue.str "x"), ("id", JValue.str "caller-supplied")]

/-- C7 evaluation: `ceGetID` under the caller-function strategy indeed
returns the empty string with no error, but `ceAddFields` then writes
that empty string into the record unconditionally, overwriting the
caller-supplied id with the empty string instead of leaving the field
alone. -/
theorem ceAddFields_overwrites_caller_id :
    ceGetID c7ce c7rec = .ok ("", c7ce) ∧
    asString (lookupF c7rec CEIDKey) = some "caller-supplied" ∧
    ceAddFields c7ce c7rec =
      .ok ([("data", JValue.str "x"), ("id", JValue.str "")], c7ce) ∧
    asString (lookupF [("data", JValue.str "x"), ("id", JValue.str "")] CEIDKey) =
      some "" ∧
    some "" ≠ some "caller-supplied" := by
  exact ⟨rfl, rfl, rfl, rfl, by decide⟩

end GoCore

namespace GoCore

/-! ## Claim C5: topic override and stripping -/

/-- Helper: the record coming out of the topic-capture step never
contains the topic key. -/
theorem lookupF_captureTopic_snd (d : String) (m : Record) :
    lookupF (captureTopic d m).2 TopicKey = none := by
  rw [captureTopic]
  cases hT : lookupF m TopicKey with
  | none => exact hT
  | some v => simp [lookupF_eraseF]

/-- Helper: a successful `getKey` never introduces a topic field, given
that a registered key hook does not. -/
theorem getKey_absent (env : Env) (kp : KafkaProducer) (m m2 : Record)
    (key : String)
    (hg : ∀ g, kp.config.keyFn = some g → ∀ mm, lookupF mm TopicKey = none →
      lookupF (g mm).2 TopicKey = none)
    (h : getKey env kp m = .ok (key, m2))
    (hm : lookupF m TopicKey = none) : lookupF m2 TopicKey = none := by
  rw [getKey] at h
  by_cases h1 : kp.config.Key = FixedKey
  · rw [if_pos h1] at h
    simp only [Outcome.ok.injEq, Prod.mk.injEq] at h
    rw [← h.2]
    exact hm
  rw [if_neg h1] at h
  by_cases h2 : kp.config.Key = ExtractedKey
  · rw [if_pos h2] at h
    cases hA : asString (lookupF m kp.config.KeyName) with
    | none => rw [hA] at h; cases h
    | some name =>
      rw [hA] at h
      simp only [Outcome.ok.injEq, Prod.mk.injEq] at h
      rw [← h.2, lookupF_eraseF]
      split <;> simp [hm]
  rw [if_neg h2] at h
  by_cases h3 : kp.config.Key = TimeSecondKey
  · rw [if_pos h3] at h
    simp only [Outcome.ok.injEq, Prod.mk.injEq] at h
    rw [← h.2]; exact hm
  rw [if_neg h3] at h
  by_cases h4 : kp.config.Key = TimeNanoSecondKey
  · rw [if_pos h4] at h
    simp only [Outcome.ok.injEq, Prod.mk.injEq] at h
    rw [← h.2]; exact hm
  rw [if_neg h4] at h
  cases hF : (if kp.config.Key = FunctionKey then kp.config.keyFn else none) with
  | some g =>
    rw [hF] at h
    simp only [Outcome.ok.injEq] at h
    have hgsome : kp.config.keyFn = some g := by
      by_cases h5 : kp.config.Key = FunctionKey
      · rwa [if_pos h5] at hF
      · rw [if_neg h5] at hF; cases hF
    have hgm := hg g hgsome m hm
    rw [h] at hgm
    exact hgm
  | none =>
    rw [hF] at h
    cases hL : asString (lookupF m kp.levelKey) with
    | none => rw [hL] at h; cases h
    | some s =>
      rw [hL] at h
      simp only [Outcome.ok.injEq, Prod.mk.injEq] at h
      rw [← h.2]; exact hm

/-- Helper: cloudevents enrichment writes only the id field and so
never introduces a topic field. -/
theorem ceEnrich_absent (enable : Bool) (ceo : Option CloudEvents)
    (m m2 : Record) (ce2 : Option CloudEvents)
    (h : ceEnrich enable ceo m = .ok (m2, ce2))
    (hm : lookupF m TopicKey = none) : lookupF m2 TopicKey = none := by
  by_cases hE : enable
  · cases ceo with
    | none => simp [ceEnrich, hE] at h
    | some ce =>
      simp only [ceEnrich, hE, if_true] at h
      cases hA : ceAddFields ce m with
      | ok mc =>
        obtain ⟨mm, cc⟩ := mc
        rw [hA] at h
        simp only [Outcome.ok.injEq, Prod.mk.injEq] at h
        rw [ceAddFields] at hA
        cases hG : ceGetID ce m with
        | ok sc =>
          obtain ⟨s, c2⟩ := sc
          rw [hG] at hA
          simp only [Outcome.ok.injEq, Prod.mk.injEq] at hA
          rw [← h.1, ← hA.1, lookupF_insertF_ne]
          · exact hm
          · decide
        | err e => rw [hG] at hA; cases hA
        | panicked e => rw [hG] at hA; cases hA
      | err e => rw [hA] at h; cases h
      | panicked e => rw [hA] at h; cases h
  · replace hE : enable = false := by simpa using hE
    simp only [ceEnrich, hE, Bool.false_eq_true, if_false] at h
    simp only [Outcome.ok.injEq, Prod.mk.injEq] at h
    rw [← h.1]; exact hm

end GoCore

namespace GoCore

/-- C5 (amended): whenever `sendMessage` delivers a message for a
record, a string-valued sidecar topic field becomes the delivery topic
(a non-string sidecar topic never reaches delivery: the final type
assertion panics), and without a sidecar field the configured default
topic is used with the topic step leaving the map unchanged; the
sidecar field is absent from the submitted payload provided no
registered filter or key hook re-inserts a topic field. -/
theorem sendMessage_topic_override :
    ∀ (env : Env) (kp : KafkaProducer) (raw : String) (r : Record)
      (pm : ProducerMessage) (kp2 : KafkaProducer),
    sendMessage env kp (.object raw r) = .ok (pm, kp2) →
    ((∃ t, lookupF r TopicKey = some (JValue.str t) ∧ pm.Topic = t) ∨
      (lookupF r TopicKey = none ∧ pm.Topic = kp.config.Topic)) ∧
    (lookupF r TopicKey = none →
      captureTopic kp.config.Topic r = (JValue.str kp.config.Topic, r)) ∧
    ((∀ f, kp.config.filterFn = some f → ∀ mm, lookupF mm TopicKey = none →
        lookupF (f mm) TopicKey = none) →
     (∀ g, kp.config.keyFn = some g → ∀ mm, lookupF mm TopicKey = none →
        lookupF (g mm).2 TopicKey = none) →
     lookupF pm.Value TopicKey = none) := by
  intro env kp raw r pm kp2 h
  rw [sendMessage_eq_pipeline, sendMessagePipeline] at h
  simp only [jsonUnmarshal] at h
  have habs : ∀ key m1 m3 ce2,
      getKey env kp (captureTopic kp.config.Topic r).2 = .ok (key, m1) →
      ceEnrich kp.enableCE kp.cloudEvents (applyFilter kp.config.filterFn m1) =
        .ok (m3, ce2) →
      (∀ f, kp.config.filterFn = some f → ∀ mm, lookupF mm TopicKey = none →
        lookupF (f mm) TopicKey = none) →
      (∀ g, kp.config.keyFn = some g → ∀ mm, lookupF mm TopicKey = none →
        lookupF (g mm).2 TopicKey = none) →
      lookupF m3 TopicKey = none := by
    intro key m1 m3 ce2 hK hC hf hg
    have h0 : lookupF (captureTopic kp.config.Topic r).2 TopicKey = none :=
      lookupF_captureTopic_snd kp.config.Topic r
    have h1 : lookupF m1 TopicKey = none :=
      getKey_absent env kp (captureTopic kp.config.Topic r).2 m1 key hg hK h0
    have h2 : lookupF (applyFilter kp.config.filterFn m1) TopicKey = none := by
      cases hff : kp.config.filterFn with
      | none => simpa only [applyFilter, hff] using h1
      | some f => simpa only [applyFilter, hff] using hf f hff m1 h1
    exact ceEnrich_absent kp.enableCE kp.cloudEvents
      (applyFilter kp.config.filterFn m1) m3 ce2 hC h2
  cases hT : lookupF r TopicKey with
  | none =>
    simp only [captureTopic, hT] at h
    cases hK : getKey env kp r with
    | err e => simp [hK] at h
    | panicked e => simp [hK] at h
    | ok kv =>
      obtain ⟨key, m1⟩ := kv
      simp only [hK] at h
      cases hC : ceEnrich kp.enableCE kp.cloudEvents
          (applyFilter kp.config.filterFn m1) with
      | err e => simp [hC] at h
      | panicked e => simp [hC] at h
      | ok mc =>
        obtain ⟨m3, ce2⟩ := mc
        simp only [hC] at h
        simp only [submitMessage, jsonMarshal] at h
        simp only [Outcome.ok.injEq, Prod.mk.injEq] at h
        obtain ⟨hpm, hkp2⟩ := h
        refine ⟨Or.inr ⟨rfl, ?_⟩, ?_, ?_⟩
        · rw [← hpm]
        · intro hno
          simp [captureTopic, hT]
        · intro hf hg
          rw [← hpm]
          have hcap : getKey env kp (captureTopic kp.config.Topic r).2 =
              .ok (key, m1) := by
            have hc2 : (captureTopic kp.config.Topic r).2 = r := by
              simp [captureTopic, hT]
            rw [hc2]; exact hK
          exact habs key m1 m3 ce2 hcap hC hf hg
  | some v =>
    simp only [captureTopic, hT] at h
    cases hK : getKey env kp (eraseF r TopicKey) with
    | err e => simp [hK] at h
    | panicked e => simp [hK] at h
    | ok kv =>
      obtain ⟨key, m1⟩ := kv
      simp only [hK] at h
      cases hC : ceEnrich kp.enableCE kp.cloudEvents
          (applyFilter kp.config.filterFn m1) with
      | err e => simp [hC] at h
      | panicked e => simp [hC] at h
      | ok mc =>
        obtain ⟨m3, ce2⟩ := mc
        simp only [hC] at h
        cases v with
        | str t =>
          simp only [submitMessage, jsonMarshal] at h
          simp only [Outcome.ok.injEq, Prod.mk.injEq] at h
          obtain ⟨hpm, hkp2⟩ := h
          refine ⟨Or.inl ⟨t, rfl, ?_⟩, ?_, ?_⟩
          · rw [← hpm]
          · intro hcon
            exact Option.noConfusion hcon
          · intro hf hg
            rw [← hpm]
            have hcap : getKey env kp (captureTopic kp.config.Topic r).2 =
                .ok (key, m1) := by
              have hc2 : (captureTopic kp.config.Topic r).2 = eraseF r TopicKey := by
                simp [captureTopic, hT]
              rw [hc2]; exact hK
            exact habs key m1 m3 ce2 hcap hC hf hg
        | num n => simp [submitMessage] at h
        | jbool b => simp [submitMessage] at h
        | jnull => simp [submitMessage] at h
        | arr xs => simp [submitMessage] at h
        | obj fs => simp [submitMessage] at h


/-- Concrete hook-free producer for the C5 witness. -/
def c5kp : KafkaProducer :=
  { config := { Brokers := ["localhost:9092"], Topic := "logs",
                Key := LevelKey, KeyName := "",
                filterFn := none, keyFn := none }
    cloudEvents := none
    enableCE := false
    levelKey := "level" }

/-- Record carrying a sidecar topic field. -/
def c5rec : Record := [("topic", JValue.str "custom"), ("level", JValue.str "info")]

/-- The message the fake client receives for `c5rec`. -/
def c5pm : ProducerMessage :=
  { Topic := "custom", Key := "info", Value := [("level", JValue.str "info")] }

/-- Witness for C5: the sidecar topic routes the message and is stripped
from the submitted payload. -/
theorem sendMessage_topic_override_witness :
    sendMessage { nowUnix := 0, nowUnixNano := 0 } c5kp (.object "b" c5rec) =
      .ok (c5pm, c5kp) ∧
    ((∃ t, lookupF c5rec TopicKey = some (JValue.str t) ∧ c5pm.Topic = t) ∨
      (lookupF c5rec TopicKey = none ∧ c5pm.Topic = c5kp.config.Topic)) ∧
    lookupF c5pm.Value TopicKey = none := by
  have hsend : sendMessage { nowUnix := 0, nowUnixNano := 0 } c5kp
      (.object "b" c5rec) = .ok (c5pm, c5kp) := rfl
  refine ⟨hsend, ?_, ?_⟩
  · exact (sendMessage_topic_override { nowUnix := 0, nowUnixNano := 0 } c5kp
      "b" c5rec c5pm c5kp hsend).1
  · exact (sendMessage_topic_override { nowUnix := 0, nowUnixNano := 0 } c5kp
      "b" c5rec c5pm c5kp hsend).2.2
      (fun f hf => Option.noConfusion hf)
      (fun g hg => Option.noConfusion hg)

/-- Producer whose filter hook re-inserts a topic field after the
sidecar has been stripped. -/
def c5bkp : KafkaProducer :=
  { config := { Brokers := ["localhost:9092"], Topic := "logs",
                Key := LevelKey, KeyName := "",
                filterFn := some (fun m => insertF m TopicKey (JValue.str "evil")),
                keyFn := none }
    cloudEvents := none
    enableCE := false
    levelKey := "level" }

/-- The message submitted for `c5rec` under the topic-re-inserting
filter hook. -/
def c5bpm : ProducerMessage :=
  { Topic := "custom", Key := "info",
    Value := [("level", JValue.str "info"), ("topic", JValue.str "evil")] }

/-- Counterexample to C5 as stated: a record carrying a sidecar topic
field whose submitted payload nevertheless contains a topic field,
because a registered filter hook re-inserted one after stripping. -/
theorem sendMessage_topic_reinserted :
    lookupF c5rec TopicKey = some (JValue.str "custom") ∧
    sendMessage { nowUnix := 0, nowUnixNano := 0 } c5bkp (.object "b" c5rec) =
      .ok (c5bpm, c5bkp) ∧
    c5bpm.Topic = "custom" ∧
    asString (lookupF c5bpm.Value TopicKey) = some "evil" := by
  exact ⟨rfl, rfl, rfl, rfl⟩

end GoCore

namespace GoCore

/-! ## Claim C8: non-empty partition keys -/

/-- Helper: the fuel-based digit function agrees with the Mathlib digit
function whenever the fuel covers the input. -/
theorem natDigitsAux_eq (fuel : Nat) : ∀ n : Nat, n ≤ fuel →
    natDigitsAux fuel n = Nat.digits 10 n := by
  induction fuel with
  | zero =>
    intro n hn
    interval_cases n
    simp [natDigitsAux]
  | succ fuel ih =>
    intro n hn
    rw [natDigitsAux]
    by_cases hz : n = 0
    · subst hz; simp
    · rw [if_neg hz,
        Nat.digits_def' (by norm_num : (1 : Nat) < 10) (Nat.pos_of_ne_zero hz),
        ih (n / 10) ?_]
      have hlt : n / 10 < n := Nat.div_lt_self (Nat.pos_of_ne_zero hz) (by norm_num)
      omega

/-- Helper: the fuel of `natDigits` always suffices. -/
theorem natDigits_eq (n : Nat) : natDigits n = Nat.digits 10 n :=
  natDigitsAux_eq n n le_rfl

/-- Helper: the decimal representation of a natural number is never the
empty string. -/
theorem natDecStr_ne_empty (n : Nat) : natDecStr n ≠ "" := by
  rw [natDecStr]
  split
  · decide
  · next h =>
    intro hcon
    have hdata : (natDigits n).reverse.map (fun d => Char.ofNat (48 + d)) = [] :=
      congrArg String.data hcon
    simp [natDigits_eq, List.map_eq_nil_iff, List.reverse_eq_nil_iff,
      Nat.digits_eq_nil_iff_eq_zero] at hdata
    exact h hdata

/-- Helper: Go `strconv.Itoa` never returns the empty string. -/
theorem intStr_ne_empty (i : Int) : intStr i ≠ "" := by
  rw [intStr]
  split
  · intro hcon
    have hdata : ("-" ++ natDecStr i.natAbs).data = [] := congrArg String.data hcon
    rw [String.data_append] at hdata
    simp at hdata
  · exact natDecStr_ne_empty _

/-- Helper: construction keeps the configured key strategy, and under
the fixed strategy the constructed key name is never empty (the package
default is substituted for an empty one). -/
theorem newKafkaProducer_key_fields (cfg : ProducerConfiguration)
    (ceo : Option CloudEvents) (cecfg : CloudEventsConfiguration) :
    (newKafkaProducer cfg ceo cecfg).config.Key = cfg.Key ∧
    ((newKafkaProducer cfg ceo cecfg).config.Key = FixedKey →
      (newKafkaProducer cfg ceo cecfg).config.KeyName ≠ "") := by
  rw [newKafkaProducer]
  constructor
  · dsimp only
    split <;> split <;> split <;> rfl
  · dsimp only
    intro hfix hempty
    revert hfix hempty
    split <;> split <;> split <;> intro hfix hempty <;>
      simp_all [defaultProducerConfiguration]


/-- Helper: the key produced by `getKey` under each strategy. -/
theorem getKey_by_strategy (env : Env) (kp : KafkaProducer) (m : Record) :
    (kp.config.Key = FixedKey → getKey env kp m = .ok (kp.config.KeyName, m)) ∧
    (kp.config.Key = TimeSecondKey →
      getKey env kp m = .ok (intStr env.nowUnix, m)) ∧
    (kp.config.Key = TimeNanoSecondKey →
      getKey env kp m = .ok (intStr env.nowUnixNano, m)) ∧
    (∀ g, kp.config.Key = FunctionKey → kp.config.keyFn = some g →
      getKey env kp m = .ok (g m)) ∧
    ((kp.config.Key = LevelKey ∨
        (kp.config.Key = FunctionKey ∧ kp.config.keyFn = none)) →
      ∀ s, asString (lookupF m kp.levelKey) = some s →
        getKey env kp m = .ok (s, m)) := by
  refine ⟨?_, ?_, ?_, ?_, ?_⟩
  · intro hk
    rw [getKey, if_pos hk]
  · intro hk
    have h1 : ¬ (kp.config.Key = FixedKey) := by rw [hk]; decide
    have h2 : ¬ (kp.config.Key = ExtractedKey) := by rw [hk]; decide
    rw [getKey, if_neg h1, if_neg h2, if_pos hk]
  · intro hk
    have h1 : ¬ (kp.config.Key = FixedKey) := by rw [hk]; decide
    have h2 : ¬ (kp.config.Key = ExtractedKey) := by rw [hk]; decide
    have h3 : ¬ (kp.config.Key = TimeSecondKey) := by rw [hk]; decide
    rw [getKey, if_neg h1, if_neg h2, if_neg h3, if_pos hk]
  · intro g hk hg
    have h1 : ¬ (kp.config.Key = FixedKey) := by rw [hk]; decide
    have h2 : ¬ (kp.config.Key = ExtractedKey) := by rw [hk]; decide
    have h3 : ¬ (kp.config.Key = TimeSecondKey) := by rw [hk]; decide
    have h4 : ¬ (kp.config.Key = TimeNanoSecondKey) := by rw [hk]; decide
    rw [getKey, if_neg h1, if_neg h2, if_neg h3, if_neg h4, if_pos hk, hg]
  · intro hk s hs
    rcases hk with hk | ⟨hk, hf⟩
    · have h1 : ¬ (kp.config.Key = FixedKey) := by rw [hk]; decide
      have h2 : ¬ (kp.config.Key = ExtractedKey) := by rw [hk]; decide
      have h3 : ¬ (kp.config.Key = TimeSecondKey) := by rw [hk]; decide
      have h4 : ¬ (kp.config.Key = TimeNanoSecondKey) := by rw [hk]; decide
      have h5 : ¬ (kp.config.Key = FunctionKey) := by rw [hk]; decide
      rw [getKey, if_neg h1, if_neg h2, if_neg h3, if_neg h4, if_neg h5]
      simp only
      rw [hs]
    · have h1 : ¬ (kp.config.Key = FixedKey) := by rw [hk]; decide
      have h2 : ¬ (kp.config.Key = ExtractedKey) := by rw [hk]; decide
      have h3 : ¬ (kp.config.Key = TimeSecondKey) := by rw [hk]; decide
      have h4 : ¬ (kp.config.Key = TimeNanoSecondKey) := by rw [hk]; decide
      rw [getKey, if_neg h1, if_neg h2, if_neg h3, if_neg h4, if_pos hk, hf]
      simp only
      rw [hs]

/-- Helper: the key of every message `sendMessage` submits is the key
`getKey` derived from the record after topic capture. -/
theorem sendMessage_key_from_getKey (env : Env) (kp : KafkaProducer)
    (raw : String) (r : Record) (pm : ProducerMessage) (kp2 : KafkaProducer)
    (h : sendMessage env kp (.object raw r) = .ok (pm, kp2)) :
    ∃ m1, getKey env kp (captureTopic kp.config.Topic r).2 = .ok (pm.Key, m1) := by
  rw [sendMessage_eq_pipeline, sendMessagePipeline] at h
  simp only [jsonUnmarshal] at h
  cases hK : getKey env kp (captureTopic kp.config.Topic r).2 with
  | err e => simp [hK] at h
  | panicked e => simp [hK] at h
  | ok kv =>
    obtain ⟨key, m1⟩ := kv
    simp only [hK] at h
    cases hC : ceEnrich kp.enableCE kp.cloudEvents
        (applyFilter kp.config.filterFn m1) with
    | err e => simp [hC] at h
    | panicked e => simp [hC] at h
    | ok mc =>
      obtain ⟨m3, ce2⟩ := mc
      simp only [hC] at h
      cases hTop : (captureTopic kp.config.Topic r).1 with
      | str t =>
        simp only [hTop, submitMessage, jsonMarshal] at h
        simp only [Outcome.ok.injEq, Prod.mk.injEq] at h
        obtain ⟨hpm, hkp2⟩ := h
        refine ⟨m1, ?_⟩
        subst hpm
        rfl
      | num n => simp [hTop, submitMessage] at h
      | jbool b => simp [hTop, submitMessage] at h
      | jnull => simp [hTop, submitMessage] at h
      | arr xs => simp [hTop, submitMessage] at h
      | obj fs => simp [hTop, submitMessage] at h


/-- C8 (amended): every submitted key comes from `getKey`; under the
fixed strategy (whose key name construction makes non-empty) and the
two time strategies the submitted key is never empty, while under the
extracted, level and function strategies the key equals the extracted
field value, the level field value, or the hook result respectively --
strings that may themselves be empty -- and the extracted strategy
returns an error instead of submitting when its source field is
absent. -/
theorem sendMessage_key_characterization :
    (∀ (cfg : ProducerConfiguration) (ceo : Option CloudEvents)
        (cecfg : CloudEventsConfiguration),
      (newKafkaProducer cfg ceo cecfg).config.Key = FixedKey →
      (newKafkaProducer cfg ceo cecfg).config.KeyName ≠ "") ∧
    (∀ (env : Env) (kp : KafkaProducer) (raw : String) (r : Record)
        (pm : ProducerMessage) (kp2 : KafkaProducer),
      sendMessage env kp (.object raw r) = .ok (pm, kp2) →
      ∃ m1, getKey env kp (captureTopic kp.config.Topic r).2 = .ok (pm.Key, m1)) ∧
    (∀ (env : Env) (kp : KafkaProducer) (m : Record),
      (kp.config.Key = FixedKey → getKey env kp m = .ok (kp.config.KeyName, m)) ∧
      (kp.config.Key = TimeSecondKey →
        getKey env kp m = .ok (intStr env.nowUnix, m) ∧ intStr env.nowUnix ≠ "") ∧
      (kp.config.Key = TimeNanoSecondKey →
        getKey env kp m = .ok (intStr env.nowUnixNano, m) ∧
          intStr env.nowUnixNano ≠ "") ∧
      (kp.config.Key = ExtractedKey →
        asString (lookupF m kp.config.KeyName) = none →
        getKey env kp m = .err "Extracted key missing") ∧
      (∀ g, kp.config.Key = FunctionKey → kp.config.keyFn = some g →
        getKey env kp m = .ok (g m)) ∧
      ((kp.config.Key = LevelKey ∨
          (kp.config.Key = FunctionKey ∧ kp.config.keyFn = none)) →
        ∀ s, asString (lookupF m kp.levelKey) = some s →
          getKey env kp m = .ok (s, m))) ∧
    (∀ (cfg : ProducerConfiguration) (ceo : Option CloudEvents)
        (cecfg : CloudEventsConfiguration) (env : Env) (raw : String)
        (r : Record) (pm : ProducerMessage) (kp2 : KafkaProducer),
      (newKafkaProducer cfg ceo cecfg).config.Key = FixedKey →
      sendMessage env (newKafkaProducer cfg ceo cecfg) (.object raw r) =
        .ok (pm, kp2) →
      pm.Key ≠ "") ∧
    (∀ (env : Env) (kp : KafkaProducer) (raw : String) (r : Record)
        (pm : ProducerMessage) (kp2 : KafkaProducer),
      (kp.config.Key = TimeSecondKey ∨ kp.config.Key = TimeNanoSecondKey) →
      sendMessage env kp (.object raw r) = .ok (pm, kp2) →
      pm.Key ≠ "") := by
  refine ⟨?_, ?_, ?_, ?_, ?_⟩
  · intro cfg ceo cecfg
    exact (newKafkaProducer_key_fields cfg ceo cecfg).2
  · intro env kp raw r pm kp2 h
    exact sendMessage_key_from_getKey env kp raw r pm kp2 h
  · intro env kp m
    obtain ⟨hfix, hsec, hnano, hfn, hlvl⟩ := getKey_by_strategy env kp m
    refine ⟨hfix, ?_, ?_, ?_, hfn, hlvl⟩
    · intro hk
      exact ⟨hsec hk, intStr_ne_empty env.nowUnix⟩
    · intro hk
      exact ⟨hnano hk, intStr_ne_empty env.nowUnixNano⟩
    · intro hk hl
      have h1 : ¬ (kp.config.Key = FixedKey) := by rw [hk]; decide
      rw [getKey, if_neg h1, if_pos hk, hl]
  · intro cfg ceo cecfg env raw r pm kp2 hfix hsend hempty
    obtain ⟨m1, hprov⟩ :=
      sendMessage_key_from_getKey env (newKafkaProducer cfg ceo cecfg)
        raw r pm kp2 hsend
    have hchar := (getKey_by_strategy env (newKafkaProducer cfg ceo cecfg)
      (captureTopic (newKafkaProducer cfg ceo cecfg).config.Topic r).2).1 hfix
    rw [hprov] at hchar
    simp only [Outcome.ok.injEq, Prod.mk.injEq] at hchar
    have hne := (newKafkaProducer_key_fields cfg ceo cecfg).2 hfix
    rw [hchar.1] at hempty
    exact hne hempty
  · intro env kp raw r pm kp2 hk hsend hempty
    obtain ⟨m1, hprov⟩ := sendMessage_key_from_getKey env kp raw r pm kp2 hsend
    rcases hk with hk | hk
    · have hchar := ((getKey_by_strategy env kp
        (captureTopic kp.config.Topic r).2).2.1) hk
      rw [hprov] at hchar
      simp only [Outcome.ok.injEq, Prod.mk.injEq] at hchar
      rw [hchar.1] at hempty
      exact intStr_ne_empty env.nowUnix hempty
    · have hchar := ((getKey_by_strategy env kp
        (captureTopic kp.config.Topic r).2).2.2.1) hk
      rw [hprov] at hchar
      simp only [Outcome.ok.injEq, Prod.mk.injEq] at hchar
      rw [hchar.1] at hempty
      exact intStr_ne_empty env.nowUnixNano hempty


/-- Configuration with every defaultable field empty and the fixed key
strategy. -/
def c8cfg : ProducerConfiguration :=
  { Brokers := [], Topic := "", Key := FixedKey, KeyName := "",
    filterFn := none, keyFn := none }

/-- The message delivered by the defaulted fixed-key producer for the
C8 witness. -/
def c8wpm : ProducerMessage :=
  { Topic := "logs", Key := "username", Value := [("level", JValue.str "info")] }

/-- Witness for C8: construction substitutes the default key name for an
empty fixed key name, and the delivered key is non-empty. -/
theorem sendMessage_key_characterization_witness :
    (newKafkaProducer c8cfg none defaultCloudEventsConfiguration).config.Key =
      FixedKey ∧
    (newKafkaProducer c8cfg none defaultCloudEventsConfiguration).config.KeyName =
      "username" ∧
    sendMessage { nowUnix := 5, nowUnixNano := 7 }
      (newKafkaProducer c8cfg none defaultCloudEventsConfiguration)
      (.object "b" [("level", JValue.str "info")]) =
      .ok (c8wpm, newKafkaProducer c8cfg none defaultCloudEventsConfiguration) ∧
    c8wpm.Key ≠ "" := by
  refine ⟨rfl, rfl, rfl, ?_⟩
  exact sendMessage_key_characterization.2.2.2.1 c8cfg none
    defaultCloudEventsConfiguration { nowUnix := 5, nowUnixNano := 7 }
    "b" [("level", JValue.str "info")] c8wpm
    (newKafkaProducer c8cfg none defaultCloudEventsConfiguration) rfl rfl

/-- Producer under the default level strategy used to exhibit an empty
submitted key. -/
def c8kp : KafkaProducer :=
  { config := { Brokers := ["localhost:9092"], Topic := "logs",
                Key := LevelKey, KeyName := "",
                filterFn := none, keyFn := none }
    cloudEvents := none
    enableCE := false
    levelKey := "level" }

/-- The message submitted for a record whose level field is the empty
string. -/
def c8pm : ProducerMessage :=
  { Topic := "logs", Key := "",
    Value := [("level", JValue.str ""), ("data", JValue.str "x")] }

/-- Counterexample to C8 as stated: a record accepted by `sendMessage`
whose submitted message carries the empty partition key, because the
level strategy copies the record's empty level value. -/
theorem sendMessage_submits_empty_key :
    sendMessage { nowUnix := 0, nowUnixNano := 0 } c8kp
      (.object "b" [("level", JValue.str ""), ("data", JValue.str "x")]) =
      .ok (c8pm, c8kp) ∧
    c8pm.Key = "" := by
  exact ⟨rfl, rfl⟩

end GoCore

namespace GoCore

/-! ## Claim C6: the incremental id generator -/

/-- Counter value captured by the `incrementalID` closure after `n`
calls. -/
def incrState : Nat → Nat
  | 0 => 0
  | n + 1 => (incrementalIDNext (incrState n)).1

/-- The id string returned by the n-th sequential call (1-indexed) of
the incremental-id generator. -/
def incrNthID (n : Nat) : String := (incrementalIDNext (incrState (n - 1))).2

/-- Helper: the wrapping counter equals the call count modulo 2^64. -/
theorem incrState_eq (n : Nat) : incrState n = n % 18446744073709551616 := by
  induction n with
  | zero => rfl
  | succ n ih =>
    rw [incrState, incrementalIDNext, ih]
    dsimp only
    omega

/-- Helper: the n-th id is the zero-padded call number modulo 2^64. -/
theorem incrNthID_eq (n : Nat) (h : 1 ≤ n) :
    incrNthID n = pad20 (n % 18446744073709551616) := by
  rw [incrNthID, incrementalIDNext, incrState_eq]
  dsimp only
  congr 1
  omega

/-- Helper: the character of a decimal digit has the expected code
point. -/
theorem digitCharNat (d : Nat) (h : d < 10) :
    (Char.ofNat (48 + d)).toNat = 48 + d ∧
    48 ≤ (Char.ofNat (48 + d)).toNat ∧ (Char.ofNat (48 + d)).toNat ≤ 57 := by
  interval_cases d <;> exact ⟨rfl, by decide, by decide⟩

/-- Helper: leading zeros do not change the decoded decimal value. -/
theorem decode_foldl_zeros (k : Nat) (rest : List Char) :
    List.foldl (fun a c => 10 * a + (c.toNat - 48)) 0
      (List.replicate k '0' ++ rest) =
    List.foldl (fun a c => 10 * a + (c.toNat - 48)) 0 rest := by
  induction k with
  | zero => rfl
  | succ k ih =>
    rw [List.replicate_succ, List.cons_append, List.foldl_cons]
    simpa using ih

/-- Helper: decoding the big-endian digit characters of a digit list
recovers its value. -/
theorem decode_foldl_digits (ds : List Nat) (hds : ∀ d ∈ ds, d < 10) :
    ∀ a : Nat, List.foldl (fun a c => 10 * a + (c.toNat - 48)) a
      (ds.reverse.map (fun d => Char.ofNat (48 + d))) =
    a * 10 ^ ds.length + Nat.ofDigits 10 ds := by
  induction ds with
  | nil => intro a; simp
  | cons d ds ih =>
    intro a
    have hd : d < 10 := hds d (List.mem_cons_self d ds)
    have hds2 : ∀ x ∈ ds, x < 10 := fun x hx => hds x (List.mem_cons_of_mem d hx)
    rw [List.reverse_cons, List.map_append, List.foldl_append]
    rw [ih hds2 a]
    simp only [List.map_cons, List.map_nil, List.foldl_cons, List.foldl_nil]
    rw [(digitCharNat d hd).1, Nat.ofDigits_cons, List.length_cons, pow_succ,
      Nat.add_sub_cancel_left]
    ring

/-- Helper: a number below 10^20 has at most 20 decimal digits. -/
theorem digits_len_le (n : Nat) (h : n < 10 ^ 20) :
    (Nat.digits 10 n).length ≤ 20 := by
  by_cases hz : n = 0
  · subst hz; simp
  · by_contra hcon
    push_neg at hcon
    have h1 : (10 : Nat) ^ (Nat.digits 10 n).length ≤ 10 * n :=
      Nat.base_pow_length_digits_le 10 n (by norm_num) hz
    have h2 : (10 : Nat) ^ 21 ≤ 10 ^ (Nat.digits 10 n).length :=
      Nat.pow_le_pow_right (by norm_num) hcon
    omega

/-- Helper: for inputs below 10^20 the `%020d` format produces exactly
20 characters, all decimal digits, and the string decodes back to the
input. -/
theorem pad20_spec (n : Nat) (h : n < 10 ^ 20) :
    (pad20 n).length = 20 ∧ decodeDec (pad20 n) = n ∧
    (∀ c ∈ (pad20 n).data, 48 ≤ c.toNat ∧ c.toNat ≤ 57) := by
  have hdata : (pad20 n).data =
      List.replicate (20 - (natDecStr n).length) '0' ++ (natDecStr n).data := by
    rw [pad20, String.data_append]
  by_cases hz : n = 0
  · subst hz
    refine ⟨rfl, rfl, ?_⟩
    decide
  · have hstr : (natDecStr n).data =
        (Nat.digits 10 n).reverse.map (fun d => Char.ofNat (48 + d)) := by
      rw [natDecStr, if_neg hz, natDigits_eq]
    have hlen : (natDecStr n).length = (Nat.digits 10 n).length := by
      rw [String.length, hstr]
      simp
    have hlen20 : (natDecStr n).length ≤ 20 := by
      rw [hlen]; exact digits_len_le n h
    refine ⟨?_, ?_, ?_⟩
    · show (pad20 n).data.length = 20
      rw [hdata]
      simp only [List.length_append, List.length_replicate]
      have hdl : (natDecStr n).data.length = (natDecStr n).length := rfl
      rw [hdl]
      omega
    · rw [decodeDec, hdata, decode_foldl_zeros, hstr,
        decode_foldl_digits (Nat.digits 10 n)
          (fun d hd => Nat.digits_lt_base (by norm_num) hd) 0]
      simp [Nat.ofDigits_digits]
    · intro c hc
      rw [hdata] at hc
      rcases List.mem_append.mp hc with hc | hc
      · rw [List.eq_of_mem_replicate hc]
        constructor <;> decide
      · rw [hstr] at hc
        obtain ⟨d, hd, hcd⟩ := List.mem_map.mp hc
        have hd10 : d < 10 :=
          Nat.digits_lt_base (by norm_num) (List.mem_reverse.mp hd)
        rw [← hcd]
        exact (digitCharNat d hd10).2


/-- C6 (amended): for every N below 2^64, the first N sequential calls
of the incremental-id generator return zero-padded 20-digit decimal
strings whose decoded values are exactly 1..N (hence strictly
increasing), the first being the string of nineteen zeros and a one;
beyond 2^64 calls the `uint64` counter wraps and the sequence is no
longer increasing. -/
theorem incrementalID_monotone :
    ∀ N : Nat, N < 18446744073709551616 →
      (∀ k, 1 ≤ k → k ≤ N →
        incrNthID k = pad20 k ∧
        (incrNthID k).length = 20 ∧
        decodeDec (incrNthID k) = k ∧
        (∀ c ∈ (incrNthID k).data, 48 ≤ c.toNat ∧ c.toNat ≤ 57)) ∧
      incrNthID 1 = "00000000000000000001" ∧
      (∀ j k, 1 ≤ j → j < k → k ≤ N →
        decodeDec (incrNthID j) < decodeDec (incrNthID k)) := by
  have hmain : ∀ k : Nat, 1 ≤ k → k < 18446744073709551616 →
      incrNthID k = pad20 k ∧ (incrNthID k).length = 20 ∧
      decodeDec (incrNthID k) = k ∧
      (∀ c ∈ (incrNthID k).data, 48 ≤ c.toNat ∧ c.toNat ≤ 57) := by
    intro k h1 hk
    have heq : incrNthID k = pad20 k := by
      rw [incrNthID_eq k h1, Nat.mod_eq_of_lt hk]
    have hk10 : k < 10 ^ 20 := by
      calc k < 18446744073709551616 := hk
        _ ≤ 10 ^ 20 := by norm_num
    obtain ⟨hl, hd, hc⟩ := pad20_spec k hk10
    exact ⟨heq, by rw [heq]; exact hl, by rw [heq]; exact hd,
      by rw [heq]; exact hc⟩
  intro N hN
  refine ⟨fun k h1 h2 => hmain k h1 (lt_of_le_of_lt h2 hN), ?_, ?_⟩
  · have h := (hmain 1 le_rfl (by norm_num)).1
    rw [h]
    rfl
  · intro j k hj hjk hkN
    have hj2 := hmain j hj (by omega)
    have hk2 := hmain k (by omega) (by omega)
    rw [hj2.2.2.1, hk2.2.2.1]
    exact hjk

/-- Counterexample to C6 as stated for every N: at call 2^64 the
counter wraps to zero, so the id is not greater than its
predecessor. -/
theorem incrementalID_wraps :
    incrNthID 18446744073709551615 = "18446744073709551615" ∧
    incrNthID 18446744073709551616 = "00000000000000000000" ∧
    decodeDec (incrNthID 18446744073709551616) <
      decodeDec (incrNthID 18446744073709551615) := by
  have h1 : incrNthID 18446744073709551615 = pad20 18446744073709551615 := by
    rw [incrNthID_eq _ (by norm_num), Nat.mod_eq_of_lt (by norm_num)]
  have h2 : incrNthID 18446744073709551616 = pad20 0 := by
    rw [incrNthID_eq _ (by norm_num), Nat.mod_self]
  refine ⟨?_, ?_, ?_⟩
  · rw [h1]; rfl
  · rw [h2]; rfl
  · rw [h1, h2]; decide

/-- Witness for C6 at N = 3. -/
theorem incrementalID_monotone_witness :
    (3 : Nat) < 18446744073709551616 ∧
    incrNthID 1 = "00000000000000000001" ∧
    incrNthID 2 = pad20 2 ∧
    decodeDec (incrNthID 1) < decodeDec (incrNthID 2) := by
  refine ⟨by norm_num, (incrementalID_monotone 3 (by norm_num)).2.1, ?_, ?_⟩
  · exact ((incrementalID_monotone 3 (by norm_num)).1 2 (by norm_num)
      (by norm_num)).1
  · exact (incrementalID_monotone 3 (by norm_num)).2.2 1 2 (by norm_num)
      (by norm_num) (by norm_num)


end GoCore

namespace GoCore

/-! ## Claim C4: HMAC id derivation -/

/-- C4 (amended): under the HMAC strategy (and any unrecognized
strategy string, which the default branch treats the same way) the id
is the base64 HMAC-SHA-256 digest, under the configured secret (default
substituted when unset at construction), of the concatenation of every
message body written to this enricher's streaming hash so far including
the current one; a fresh enricher starts with an empty accumulator, so
its first id is the digest of the body alone, and two fresh enrichers
with equal secrets fed equal body sequences assign identical ids. -/
theorem ceGetID_hmac_spec :
    (∀ (ce : CloudEvents) (m : Record) (body : String),
      ce.config.SetID ≠ CEFuncID → ce.config.SetID ≠ CEIncrID →
      ce.config.SetID ≠ CEUUID →
      lookupF m CEDataKey = some (JValue.str body) →
      ceGetID ce m =
        .ok (base64Encode (hmacSHA256 (strBytes ce.config.HMACKey)
               (ce.hmacAcc ++ strBytes body)),
             { ce with hmacAcc := ce.hmacAcc ++ strBytes body })) ∧
    (∀ (cfg : CloudEventsConfiguration) (uuids : List String),
      (newCloudEvents cfg uuids).hmacAcc = []) ∧
    (∀ (cfg : CloudEventsConfiguration) (uuids : List String)
        (m : Record) (body : String),
      cfg.SetID ≠ CEFuncID → cfg.SetID ≠ CEIncrID → cfg.SetID ≠ CEUUID →
      lookupF m CEDataKey = some (JValue.str body) →
      ceGetID (newCloudEvents cfg uuids) m =
        .ok (base64Encode (hmacSHA256
               (strBytes (newCloudEvents cfg uuids).config.HMACKey)
               (strBytes body)),
             { newCloudEvents cfg uuids with hmacAcc := strBytes body })) := by
  have hpart1 : ∀ (ce : CloudEvents) (m : Record) (body : String),
      ce.config.SetID ≠ CEFuncID → ce.config.SetID ≠ CEIncrID →
      ce.config.SetID ≠ CEUUID →
      lookupF m CEDataKey = some (JValue.str body) →
      ceGetID ce m =
        .ok (base64Encode (hmacSHA256 (strBytes ce.config.HMACKey)
               (ce.hmacAcc ++ strBytes body)),
             { ce with hmacAcc := ce.hmacAcc ++ strBytes body }) := by
    intro ce m body h1 h2 h3 hB
    rw [ceGetID, if_neg h1, if_neg h2, if_neg h3, hB]
  refine ⟨hpart1, fun cfg uuids => rfl, ?_⟩
  intro cfg uuids m body h1 h2 h3 hB
  have hset : (newCloudEvents cfg uuids).config.SetID = cfg.SetID := rfl
  have hacc : (newCloudEvents cfg uuids).hmacAcc = [] := rfl
  have h := hpart1 (newCloudEvents cfg uuids) m body
    (by rw [hset]; exact h1) (by rw [hset]; exact h2) (by rw [hset]; exact h3) hB
  rw [hacc, List.nil_append] at h
  exact h


/-- Fresh HMAC enricher with the secret pavedroad. -/
def c4ce : CloudEvents :=
  newCloudEvents { SetID := CEHMAC, HMACKey := "pavedroad", Source := "",
                   SpecVersion := "", CEType := "", SetSubjectLevel := true } []

/-- Record whose message body is the single character x. -/
def c4rec : Record := [("data", JValue.str "x")]

/-- The id component of a `ceGetID` outcome. -/
def c4firstID (o : Outcome (String × CloudEvents)) : Option String :=
  match o with
  | .ok (s, _) => some s
  | _ => none

/-- The updated enricher state of a `ceGetID` outcome. -/
def c4nextCE (o : Outcome (String × CloudEvents)) : CloudEvents :=
  match o with
  | .ok (_, ce) => ce
  | _ => c4ce

/-- Counterexample to C4 as stated: two records with identical
message-body text and the same HMAC key receive different ids from the
same enricher, because the shared streaming hash accumulates: the
second id digests the concatenation of both bodies. -/
theorem ceGetID_hmac_not_deterministic :
    c4firstID (ceGetID c4ce c4rec) =
      some (base64Encode (hmacSHA256 (strBytes "pavedroad") (strBytes "x"))) ∧
    c4firstID (ceGetID (c4nextCE (ceGetID c4ce c4rec)) c4rec) =
      some (base64Encode (hmacSHA256 (strBytes "pavedroad") (strBytes "xx"))) ∧
    c4firstID (ceGetID (c4nextCE (ceGetID c4ce c4rec)) c4rec) ≠
      c4firstID (ceGetID c4ce c4rec) := by
  refine ⟨rfl, rfl, ?_⟩
  decide

/-- Witness for C4: the first id of a fresh enricher is the digest of
the message body under the configured secret. -/
theorem ceGetID_hmac_spec_witness :
    c4ce.config.SetID ≠ CEFuncID ∧
    lookupF c4rec CEDataKey = some (JValue.str "x") ∧
    c4ce.hmacAcc = [] ∧
    ceGetID c4ce c4rec =
      .ok (base64Encode (hmacSHA256 (strBytes c4ce.config.HMACKey)
             (strBytes "x")),
           { c4ce with hmacAcc := strBytes "x" }) := by
  refine ⟨by decide, rfl, ?_, ?_⟩
  · exact ceGetID_hmac_spec.2.1
      { SetID := CEHMAC, HMACKey := "pavedroad", Source := "",
        SpecVersion := "", CEType := "", SetSubjectLevel := true } []
  · exact ceGetID_hmac_spec.2.2
      { SetID := CEHMAC, HMACKey := "pavedroad", Source := "",
        SpecVersion := "", CEType := "", SetSubjectLevel := true } []
      c4rec "x" (by decide) (by decide) (by decide) rfl


end GoCore
